import Mathlib

/-!
Verification of the Elo rating dashboard (`main_app.py`).

The rating engine (`EloRating`, imported in the source as `from elo import
EloRating`) is not among the provided source files, so it is modelled from
the specification; the orchestration functions `init_elo_ratings`,
`forecast_win_probs` and `calculate_betting_edges` are embedded from
`src/main_app.py`.

Ratings and probabilities are modelled as real numbers; competitor labels
as strings.  The rating store is an association list from label to rating.
-/

/-- Modelled from the spec: default initial rating of the missing `elo`
module ("unknown competitors are assigned a default initial rating
(conventionally 1500.0)"). -/
def INITIAL_RATING : ℝ := 1500

/-- Modelled from the spec: the K-factor of the missing `elo` module
("update sensitivity, e.g. 20 or 32"); the spec's worked scenarios use
K = 20. -/
def K_FACTOR : ℝ := 20

/-- Modelled from the spec: the rating store of the missing `elo` module,
a mapping from competitor label to current rating. -/
structure EloRating where
  ratings : List (String × ℝ)

/-- The empty engine state (fresh `EloRating()` instance). -/
def EloRating.empty : EloRating := ⟨[]⟩

/-- Lookup of a competitor's rating in the store (dictionary read). -/
def lookupRating : List (String × ℝ) → String → Option ℝ
  | [], _ => none
  | (k, v) :: t, c => if k = c then some v else lookupRating t c

/-- Write of a competitor's rating in the store (dictionary write):
replaces the entry if the key is present, appends it otherwise. -/
def setRating : List (String × ℝ) → String → ℝ → List (String × ℝ)
  | [], c, v => [(c, v)]
  | (k, w) :: t, c, v => if k = c then (c, v) :: t else (k, w) :: setRating t c v

/-- Modelled from the spec: `get_rating(competitor)` of the missing `elo`
module.  "If competitor is unknown, creates it with the default initial
rating as a side effect, then returns that rating."  Returns the rating
together with the (possibly extended) engine state. -/
def EloRating.get_rating (e : EloRating) (c : String) : ℝ × EloRating :=
  match lookupRating e.ratings c with
  | some r => (r, e)
  | none => (INITIAL_RATING, ⟨(c, INITIAL_RATING) :: e.ratings⟩)

/-- The logistic expected score of a competitor rated `ra` against one
rated `rb`: `1 / (1 + 10 ^ ((rb - ra) / 400))`. -/
noncomputable def expectedScore (ra rb : ℝ) : ℝ :=
  1 / (1 + (10 : ℝ) ^ ((rb - ra) / 400))

/-- Modelled from the spec: `win_probability(a, b)` of the missing `elo`
module.  "Computes expected score of `a` over `b` using the logistic
formula `P(a beats b) = 1 / (1 + 10^((rating(b) - rating(a)) / 400))`";
"looking up `a` and `b` via get_rating may create default entries". -/
noncomputable def EloRating.win_probability (e : EloRating) (a b : String) :
    ℝ × EloRating :=
  let pa := e.get_rating a
  let pb := pa.2.get_rating b
  (expectedScore pa.1 pb.1, pb.2)

/-- Modelled from the spec: `update_ratings(a, b, result_of_a)` of the
missing `elo` module.  A `result_of_a` outside {0, 0.5, 1} "must fail
loudly (reject) rather than silently corrupt ratings"; for a valid result
it applies `rating(a) ← rating(a) + K * (result_of_a - E_a)` and
`rating(b) ← rating(b) + K * ((1 - result_of_a) - E_b)` with
`E_a = win_probability(a, b)` and `E_b = 1 - E_a` both computed from the
pre-update snapshot. -/
noncomputable def EloRating.update_ratings (e : EloRating) (a b : String)
    (r : ℝ) : Except String EloRating :=
  if r = 0 ∨ r = 1 / 2 ∨ r = 1 then
    let pa := e.get_rating a
    let pb := pa.2.get_rating b
    let ea := expectedScore pa.1 pb.1
    let eb := 1 - ea
    Except.ok ⟨setRating
      (setRating pb.2.ratings a (pa.1 + K_FACTOR * (r - ea)))
      b (pb.1 + K_FACTOR * ((1 - r) - eb))⟩
  else
    Except.error "result_of_a must be 0, 0.5 or 1"

/-! ### Orchestration layer, embedded from `src/main_app.py` -/

/-- A row of the historical games table: `Home Team`, `Away Team`,
`Home Score`, `Away Score`; a missing (`pd.isna`) score is `none`. -/
structure GameRow where
  homeTeam : String
  awayTeam : String
  homeScore : Option ℚ
  awayScore : Option ℚ

/-- One iteration of the loop of `init_elo_ratings` (`main_app.py`
lines 8–24): skip the row when either score is missing, otherwise encode
the outcome as 1 / 0 / 0.5 from the home side's perspective and apply
`update_ratings`.  The engine's `update_ratings` is fallible in this
model; on the (unreachable for these results) error it keeps the state. -/
noncomputable def initStep (e : EloRating) (g : GameRow) : EloRating :=
  match g.homeScore, g.awayScore with
  | some hs, some aw =>
      let result : ℝ := if hs > aw then 1 else if hs < aw then 0 else 1 / 2
      ((e.update_ratings g.homeTeam g.awayTeam result).toOption).getD e
  | _, _ => e

/-- `init_elo_ratings(games_df)` from `src/main_app.py`: builds a fresh
engine and replays every historical row through `update_ratings`. -/
noncomputable def init_elo_ratings (games : List GameRow) : EloRating :=
  games.foldl initStep EloRating.empty

/-- A row of the forecasts table produced by `forecast_win_probs`:
`Home Team`, `Away Team`, `Elo Home Win Prob`. -/
structure ForecastRow where
  homeTeam : String
  awayTeam : String
  eloHomeWinProb : ℝ

/-- A row of the betting table: `Home Team`, `Away Team`,
`Bookmaker Home Win Prob`. -/
structure BetRow where
  homeTeam : String
  awayTeam : String
  bookmakerHomeWinProb : ℝ

/-- A row of the edges table produced by `calculate_betting_edges`:
`Home Team`, `Away Team`, `Elo Prob`, `Bookmaker Prob`, `Edge`. -/
structure EdgeRow where
  homeTeam : String
  awayTeam : String
  eloProb : ℝ
  bookmakerProb : ℝ
  edge : ℝ

/-- The pandas boolean-mask selection
`betting_df[(betting_df["Home Team"] == home) & (betting_df["Away Team"] == away)]`
from `calculate_betting_edges`: the betting rows whose two team columns
match the given labels, in table order. -/
def matchingBets (betting : List BetRow) (home away : String) : List BetRow :=
  betting.filter (fun b => b.homeTeam = home ∧ b.awayTeam = away)

/-- The body of the loop of `calculate_betting_edges` for one forecast
row: if the selection `match` is non-empty, take `match.iloc[0]`, compute
`edge = elo_prob - bookmaker_prob` and emit the output row; otherwise emit
nothing. -/
def edgeForRow (betting : List BetRow) (row : ForecastRow) : Option EdgeRow :=
  match (matchingBets betting row.homeTeam row.awayTeam).head? with
  | some m => some
      { homeTeam := row.homeTeam
        awayTeam := row.awayTeam
        eloProb := row.eloHomeWinProb
        bookmakerProb := m.bookmakerHomeWinProb
        edge := row.eloHomeWinProb - m.bookmakerHomeWinProb }
  | none => none

/-- `calculate_betting_edges(forecasts, betting_df)` from
`src/main_app.py`: the loop appends at most one edge row per forecast row,
which is exactly a `filterMap` of `edgeForRow` over the forecast rows. -/
def calculate_betting_edges (forecasts : List ForecastRow)
    (betting : List BetRow) : List EdgeRow :=
  forecasts.filterMap (edgeForRow betting)

/-! ### Helper lemmas on the rating store -/

theorem lookupRating_setRating_self (rs : List (String × ℝ)) (c : String) (v : ℝ) :
    lookupRating (setRating rs c v) c = some v := by
  induction rs with
  | nil => simp [setRating, lookupRating]
  | cons p t ih =>
      obtain ⟨k, w⟩ := p
      by_cases hk : k = c
      · simp [setRating, hk, lookupRating]
      · simp [setRating, hk, lookupRating, ih]

theorem lookupRating_setRating_ne (rs : List (String × ℝ)) (c c' : String) (v : ℝ)
    (h : c' ≠ c) : lookupRating (setRating rs c v) c' = lookupRating rs c' := by
  induction rs with
  | nil => simp [setRating, lookupRating, Ne.symm h]
  | cons p t ih =>
      obtain ⟨k, w⟩ := p
      by_cases hk : k = c
      · subst hk
        simp [setRating, lookupRating, Ne.symm h]
      · simp only [setRating, if_neg hk, lookupRating]
        by_cases hk' : k = c'
        · simp [hk']
        · simp [hk', ih]

theorem get_rating_lookup_some (e : EloRating) (c : String) (x : ℝ)
    (h : lookupRating e.ratings c = some x) : e.get_rating c = (x, e) := by
  simp [EloRating.get_rating, h]

theorem get_rating_lookup_none (e : EloRating) (c : String)
    (h : lookupRating e.ratings c = none) :
    e.get_rating c = (INITIAL_RATING, ⟨(c, INITIAL_RATING) :: e.ratings⟩) := by
  simp [EloRating.get_rating, h]

theorem get_rating_self (e : EloRating) (c : String) :
    lookupRating (e.get_rating c).2.ratings c = some (e.get_rating c).1 := by
  unfold EloRating.get_rating
  cases h : lookupRating e.ratings c with
  | none => simp [lookupRating]
  | some r => simpa using h

/-- Characterization of a successful update: for a valid result the update
returns the store obtained by writing the two freshly computed ratings,
with both deltas derived from the pre-update snapshot. -/
theorem update_ratings_ok (e : EloRating) (a b : String) (r : ℝ)
    (hr : r = 0 ∨ r = 1 / 2 ∨ r = 1) :
    e.update_ratings a b r = Except.ok ⟨setRating
      (setRating ((e.get_rating a).2.get_rating b).2.ratings a
        ((e.get_rating a).1 + K_FACTOR *
          (r - expectedScore (e.get_rating a).1 ((e.get_rating a).2.get_rating b).1)))
      b (((e.get_rating a).2.get_rating b).1 + K_FACTOR *
        ((1 - r) - (1 - expectedScore (e.get_rating a).1 ((e.get_rating a).2.get_rating b).1)))⟩ := by
  unfold EloRating.update_ratings
  rw [if_pos hr]

/-- C1: for every two competitors `a ≠ b` and every valid result
`r ∈ {0, 0.5, 1}`, `update_ratings a b r` succeeds and stores
`rating(a) + K * (r - E_a)` for `a` and `rating(b) + K * ((1-r) - E_b)`
for `b`, where `E_a = win_probability(a, b)` and `E_b = 1 - E_a` are both
computed from the rating snapshot before the update. -/
theorem update_ratings_applies_formula (e : EloRating) (a b : String) (r : ℝ)
    (hab : a ≠ b) (hr : r = 0 ∨ r = 1 / 2 ∨ r = 1) :
    ∃ e' : EloRating,
      e.update_ratings a b r = Except.ok e' ∧
      lookupRating e'.ratings a =
        some ((e.get_rating a).1 + K_FACTOR * (r - (e.win_probability a b).1)) ∧
      lookupRating e'.ratings b =
        some (((e.get_rating a).2.get_rating b).1 +
          K_FACTOR * ((1 - r) - (1 - (e.win_probability a b).1))) := by
  refine ⟨_, update_ratings_ok e a b r hr, ?_, ?_⟩
  · rw [lookupRating_setRating_ne _ _ _ _ hab, lookupRating_setRating_self]
    rfl
  · rw [lookupRating_setRating_self]
    rfl

/-- Witness for C1: a concrete update between two fresh competitors. -/
theorem update_ratings_applies_formula_witness :
    ∃ e' : EloRating,
      EloRating.empty.update_ratings "A" "B" 1 = Except.ok e' ∧
      lookupRating e'.ratings "A" =
        some ((EloRating.empty.get_rating "A").1 +
          K_FACTOR * (1 - (EloRating.empty.win_probability "A" "B").1)) ∧
      lookupRating e'.ratings "B" =
        some (((EloRating.empty.get_rating "A").2.get_rating "B").1 +
          K_FACTOR * ((1 - 1) - (1 - (EloRating.empty.win_probability "A" "B").1))) :=
  update_ratings_applies_formula EloRating.empty "A" "B" 1
    (by decide) (by norm_num)

/-- C3: a single `update_ratings a b r` call with a valid result is
zero-sum — the rating change of `a` plus the rating change of `b` is 0. -/
theorem update_ratings_zero_sum (e : EloRating) (a b : String) (r : ℝ)
    (hab : a ≠ b) (hr : r = 0 ∨ r = 1 / 2 ∨ r = 1) :
    ∃ e' : EloRating, ∃ ra' rb' : ℝ,
      e.update_ratings a b r = Except.ok e' ∧
      lookupRating e'.ratings a = some ra' ∧
      lookupRating e'.ratings b = some rb' ∧
      (ra' - (e.get_rating a).1) +
        (rb' - ((e.get_rating a).2.get_rating b).1) = 0 := by
  refine ⟨_,
    (e.get_rating a).1 + K_FACTOR *
      (r - expectedScore (e.get_rating a).1 ((e.get_rating a).2.get_rating b).1),
    ((e.get_rating a).2.get_rating b).1 + K_FACTOR *
      ((1 - r) - (1 - expectedScore (e.get_rating a).1 ((e.get_rating a).2.get_rating b).1)),
    update_ratings_ok e a b r hr, ?_, lookupRating_setRating_self _ _ _, by ring⟩
  rw [lookupRating_setRating_ne _ _ _ _ hab, lookupRating_setRating_self]

/-- Witness for C3: the zero-sum identity at a concrete update. -/
theorem update_ratings_zero_sum_witness :
    ∃ e' : EloRating, ∃ ra' rb' : ℝ,
      EloRating.empty.update_ratings "A" "B" (1 / 2) = Except.ok e' ∧
      lookupRating e'.ratings "A" = some ra' ∧
      lookupRating e'.ratings "B" = some rb' ∧
      (ra' - (EloRating.empty.get_rating "A").1) +
        (rb' - ((EloRating.empty.get_rating "A").2.get_rating "B").1) = 0 :=
  update_ratings_zero_sum EloRating.empty "A" "B" (1 / 2) (by decide) (by norm_num)

/-- C4: `update_ratings` with a result outside {0, 0.5, 1} is rejected
with an error surfaced to the caller, producing no updated state. -/
theorem update_ratings_invalid_rejected (e : EloRating) (a b : String) (r : ℝ)
    (hr : ¬(r = 0 ∨ r = 1 / 2 ∨ r = 1)) :
    e.update_ratings a b r = Except.error "result_of_a must be 0, 0.5 or 1" ∧
    ∀ e' : EloRating, e.update_ratings a b r ≠ Except.ok e' := by
  unfold EloRating.update_ratings
  rw [if_neg hr]
  exact ⟨rfl, fun e' h => Except.noConfusion h⟩

/-- Witness for C4: result 2 is rejected. -/
theorem update_ratings_invalid_rejected_witness :
    EloRating.empty.update_ratings "A" "B" 2 =
      Except.error "result_of_a must be 0, 0.5 or 1" ∧
    ∀ e' : EloRating, EloRating.empty.update_ratings "A" "B" 2 ≠ Except.ok e' :=
  update_ratings_invalid_rejected EloRating.empty "A" "B" 2 (by norm_num)

/-- C5: `get_rating` on an unknown competitor creates an entry with the
default initial rating 1500.0 and returns it; a second `get_rating` with
no intervening update returns the same value. -/
theorem get_rating_default_idempotent (e : EloRating) (c : String)
    (h : lookupRating e.ratings c = none) :
    (e.get_rating c).1 = 1500 ∧
    lookupRating (e.get_rating c).2.ratings c = some 1500 ∧
    ((e.get_rating c).2.get_rating c).1 = (e.get_rating c).1 := by
  rw [get_rating_lookup_none e c h]
  refine ⟨rfl, ?_, ?_⟩
  · simp [lookupRating, INITIAL_RATING]
  · simp [EloRating.get_rating, lookupRating, INITIAL_RATING]

/-! ### Lemmas on the logistic expected score -/

theorem expectedScore_pos (ra rb : ℝ) : 0 < expectedScore ra rb := by
  unfold expectedScore
  have ht : (0 : ℝ) < (10 : ℝ) ^ ((rb - ra) / 400) :=
    Real.rpow_pos_of_pos (by norm_num) _
  positivity

theorem expectedScore_lt_one (ra rb : ℝ) : expectedScore ra rb < 1 := by
  unfold expectedScore
  have ht : (0 : ℝ) < (10 : ℝ) ^ ((rb - ra) / 400) :=
    Real.rpow_pos_of_pos (by norm_num) _
  rw [div_lt_one (by linarith)]
  linarith

theorem expectedScore_add_symm (x y : ℝ) :
    expectedScore x y + expectedScore y x = 1 := by
  unfold expectedScore
  have hx : (x - y) / 400 = -((y - x) / 400) := by ring
  rw [hx, Real.rpow_neg (by norm_num : (0 : ℝ) ≤ 10)]
  have ht : (0 : ℝ) < (10 : ℝ) ^ ((y - x) / 400) :=
    Real.rpow_pos_of_pos (by norm_num) _
  have h1 : (1 : ℝ) + (10 : ℝ) ^ ((y - x) / 400) ≠ 0 := by positivity
  have h2 : (1 : ℝ) + ((10 : ℝ) ^ ((y - x) / 400))⁻¹ ≠ 0 := by positivity
  field_simp
  ring

theorem expectedScore_strict_mono (y x₁ x₂ : ℝ) (h : x₁ < x₂) :
    expectedScore x₁ y < expectedScore x₂ y := by
  unfold expectedScore
  have hexp : (y - x₂) / 400 < (y - x₁) / 400 := by linarith
  have ht : (10 : ℝ) ^ ((y - x₂) / 400) < (10 : ℝ) ^ ((y - x₁) / 400) :=
    (Real.rpow_lt_rpow_left_iff (by norm_num : (1 : ℝ) < 10)).2 hexp
  have h₂ : (0 : ℝ) < (10 : ℝ) ^ ((y - x₂) / 400) :=
    Real.rpow_pos_of_pos (by norm_num) _
  have h₁ : (0 : ℝ) < (10 : ℝ) ^ ((y - x₁) / 400) :=
    Real.rpow_pos_of_pos (by norm_num) _
  exact one_div_lt_one_div_of_lt (by linarith) (by linarith)

/-- `win_probability` when both competitors are already in the store:
no lazy creation happens and the result is the logistic expected score of
the stored ratings. -/
theorem win_probability_lookup (e : EloRating) (a b : String) (x y : ℝ)
    (ha : lookupRating e.ratings a = some x)
    (hb : lookupRating e.ratings b = some y) :
    e.win_probability a b = (expectedScore x y, e) := by
  simp [EloRating.win_probability, get_rating_lookup_some e a x ha,
    get_rating_lookup_some e b y hb]

/-- Witness for C5: a fresh engine and an unseen competitor. -/
theorem get_rating_default_idempotent_witness :
    (EloRating.empty.get_rating "A").1 = 1500 ∧
    lookupRating (EloRating.empty.get_rating "A").2.ratings "A" = some 1500 ∧
    ((EloRating.empty.get_rating "A").2.get_rating "A").1 =
      (EloRating.empty.get_rating "A").1 :=
  get_rating_default_idempotent EloRating.empty "A" rfl

/-- C2: `win_probability a b` returns exactly
`1 / (1 + 10 ^ ((rating(b) - rating(a)) / 400))` on the current (lazily
defaulted) ratings, and the value is strictly between 0 and 1. -/
theorem win_probability_formula_and_bounds (e : EloRating) (a b : String) :
    (e.win_probability a b).1 =
      1 / (1 + (10 : ℝ) ^
        ((((e.get_rating a).2.get_rating b).1 - (e.get_rating a).1) / 400)) ∧
    0 < (e.win_probability a b).1 ∧ (e.win_probability a b).1 < 1 :=
  ⟨rfl, expectedScore_pos _ _, expectedScore_lt_one _ _⟩

/-- C7: for stored ratings `x` and `y`,
`win_probability a b + win_probability b a = 1` (exactly, in this real
model). -/
theorem win_probability_symmetric (e : EloRating) (a b : String) (x y : ℝ)
    (ha : lookupRating e.ratings a = some x)
    (hb : lookupRating e.ratings b = some y) :
    (e.win_probability a b).1 + (e.win_probability b a).1 = 1 := by
  rw [win_probability_lookup e a b x y ha hb,
    win_probability_lookup e b a y x hb ha]
  exact expectedScore_add_symm x y

/-- Witness for C7: symmetry at concrete ratings 1500 and 1600. -/
theorem win_probability_symmetric_witness :
    ((⟨[("A", 1500), ("B", 1600)]⟩ : EloRating).win_probability "A" "B").1 +
      ((⟨[("A", 1500), ("B", 1600)]⟩ : EloRating).win_probability "B" "A").1 = 1 :=
  win_probability_symmetric ⟨[("A", 1500), ("B", 1600)]⟩ "A" "B" 1500 1600
    (by simp [lookupRating]) (by simp [lookupRating])

/-- C8: holding `rating(b)` fixed, `win_probability a b` is strictly
increasing in `rating(a)`. -/
theorem win_probability_strictly_increasing (e₁ e₂ : EloRating)
    (a b : String) (x₁ x₂ y : ℝ)
    (h₁a : lookupRating e₁.ratings a = some x₁)
    (h₁b : lookupRating e₁.ratings b = some y)
    (h₂a : lookupRating e₂.ratings a = some x₂)
    (h₂b : lookupRating e₂.ratings b = some y)
    (hx : x₁ < x₂) :
    (e₁.win_probability a b).1 < (e₂.win_probability a b).1 := by
  rw [win_probability_lookup e₁ a b x₁ y h₁a h₁b,
    win_probability_lookup e₂ a b x₂ y h₂a h₂b]
  exact expectedScore_strict_mono y x₁ x₂ hx

/-- Witness for C8: raising A's rating from 1500 to 1700 against a fixed
1600 strictly increases A's win probability. -/
theorem win_probability_strictly_increasing_witness :
    ((⟨[("A", 1500), ("B", 1600)]⟩ : EloRating).win_probability "A" "B").1 <
      ((⟨[("A", 1700), ("B", 1600)]⟩ : EloRating).win_probability "A" "B").1 :=
  win_probability_strictly_increasing ⟨[("A", 1500), ("B", 1600)]⟩
    ⟨[("A", 1700), ("B", 1600)]⟩ "A" "B" 1500 1700 1600
    (by simp [lookupRating]) (by simp [lookupRating])
    (by simp [lookupRating]) (by simp [lookupRating]) (by norm_num)

/-- C6: `init_elo_ratings` replays the rows in order; a row with a
missing score leaves the engine unchanged, and a row with both scores
present invokes `update_ratings` with result 1 if the home score is
larger, 0 if smaller and 0.5 on a tie. -/
theorem init_elo_ratings_row_handling (games : List GameRow)
    (e : EloRating) (g : GameRow) :
    init_elo_ratings games = games.foldl initStep EloRating.empty ∧
    ((g.homeScore = none ∨ g.awayScore = none) → initStep e g = e) ∧
    (∀ hs aw : ℚ, g.homeScore = some hs → g.awayScore = some aw →
      e.update_ratings g.homeTeam g.awayTeam
          (if hs > aw then 1 else if hs < aw then 0 else 1 / 2) =
        Except.ok (initStep e g)) := by
  obtain ⟨ht, awt, hsc, asc⟩ := g
  refine ⟨rfl, ?_, ?_⟩
  · rintro (h | h)
    · dsimp only at h
      subst h
      rfl
    · dsimp only at h
      subst h
      cases hsc <;> rfl
  · intro hs aw hh ha
    dsimp only at hh ha
    subst hh
    subst ha
    have hr : (if hs > aw then (1 : ℝ) else if hs < aw then 0 else 1 / 2) = 0 ∨
        (if hs > aw then (1 : ℝ) else if hs < aw then 0 else 1 / 2) = 1 / 2 ∨
        (if hs > aw then (1 : ℝ) else if hs < aw then 0 else 1 / 2) = 1 := by
      split_ifs <;> norm_num
    show e.update_ratings ht awt
        (if hs > aw then (1 : ℝ) else if hs < aw then 0 else 1 / 2) =
      Except.ok (((e.update_ratings ht awt
        (if hs > aw then (1 : ℝ) else if hs < aw then 0 else 1 / 2)).toOption).getD e)
    rw [update_ratings_ok _ _ _ _ hr]
    rfl

/-- Witness for C6: a row with a missing home score is skipped, and a
2–1 home win is applied as an `update_ratings` call with result 1. -/
theorem init_elo_ratings_row_handling_witness :
    initStep EloRating.empty ⟨"A", "B", none, some 3⟩ = EloRating.empty ∧
    EloRating.empty.update_ratings "A" "B"
        (if (2 : ℚ) > 1 then (1 : ℝ) else if (2 : ℚ) < 1 then 0 else 1 / 2) =
      Except.ok (initStep EloRating.empty ⟨"A", "B", some 2, some 1⟩) :=
  ⟨(init_elo_ratings_row_handling [] EloRating.empty
      ⟨"A", "B", none, some 3⟩).2.1 (Or.inl rfl),
    (init_elo_ratings_row_handling [] EloRating.empty
      ⟨"A", "B", some 2, some 1⟩).2.2 2 1 rfl rfl⟩

/-- C9: for a forecast row with a matching betting row, the output row
copies the Elo probability and the (first) bookmaker probability
unchanged and reports `Edge` as their signed difference; moreover every
output row satisfies `Edge = Elo Prob - Bookmaker Prob`. -/
theorem calculate_betting_edges_edge_is_subtraction
    (forecasts : List ForecastRow) (betting : List BetRow)
    (f : ForecastRow) (m : BetRow) (hf : f ∈ forecasts)
    (hm : (matchingBets betting f.homeTeam f.awayTeam).head? = some m) :
    (∃ row ∈ calculate_betting_edges forecasts betting,
      row.homeTeam = f.homeTeam ∧ row.awayTeam = f.awayTeam ∧
      row.eloProb = f.eloHomeWinProb ∧
      row.bookmakerProb = m.bookmakerHomeWinProb ∧
      row.edge = f.eloHomeWinProb - m.bookmakerHomeWinProb) ∧
    ∀ row ∈ calculate_betting_edges forecasts betting,
      row.edge = row.eloProb - row.bookmakerProb := by
  constructor
  · refine ⟨⟨f.homeTeam, f.awayTeam, f.eloHomeWinProb, m.bookmakerHomeWinProb,
      f.eloHomeWinProb - m.bookmakerHomeWinProb⟩, ?_, rfl, rfl, rfl, rfl, rfl⟩
    rw [calculate_betting_edges, List.mem_filterMap]
    exact ⟨f, hf, by simp [edgeForRow, hm]⟩
  · intro row hrow
    rw [calculate_betting_edges, List.mem_filterMap] at hrow
    obtain ⟨f', hf', hEq⟩ := hrow
    cases h : (matchingBets betting f'.homeTeam f'.awayTeam).head? with
    | none => simp [edgeForRow, h] at hEq
    | some m' =>
        simp only [edgeForRow, h, Option.some.injEq] at hEq
        subst hEq
        rfl

/-- Witness for C9: one forecast row with one matching betting row. -/
theorem calculate_betting_edges_edge_is_subtraction_witness :
    (∃ row ∈ calculate_betting_edges [⟨"A", "B", 3 / 4⟩] [⟨"A", "B", 1 / 2⟩],
      row.homeTeam = "A" ∧ row.awayTeam = "B" ∧ row.eloProb = 3 / 4 ∧
      row.bookmakerProb = 1 / 2 ∧ row.edge = 3 / 4 - 1 / 2) ∧
    ∀ row ∈ calculate_betting_edges [⟨"A", "B", 3 / 4⟩] [⟨"A", "B", 1 / 2⟩],
      row.edge = row.eloProb - row.bookmakerProb :=
  calculate_betting_edges_edge_is_subtraction [⟨"A", "B", 3 / 4⟩]
    [⟨"A", "B", 1 / 2⟩] ⟨"A", "B", 3 / 4⟩ ⟨"A", "B", 1 / 2⟩
    (by simp) (by simp [matchingBets])

/-- C10: an output row is emitted for a forecast row exactly when some
betting row matches both team labels (unmatched forecast rows are
silently omitted), and the bookmaker probability is taken from the first
matching betting row. -/
theorem calculate_betting_edges_match_selection
    (forecasts : List ForecastRow) (betting : List BetRow) :
    (∀ f ∈ forecasts,
      (∃ b ∈ betting, b.homeTeam = f.homeTeam ∧ b.awayTeam = f.awayTeam) →
      ∃ row ∈ calculate_betting_edges forecasts betting,
        row.homeTeam = f.homeTeam ∧ row.awayTeam = f.awayTeam) ∧
    (∀ row ∈ calculate_betting_edges forecasts betting,
      ∃ f ∈ forecasts, row.homeTeam = f.homeTeam ∧ row.awayTeam = f.awayTeam ∧
        ∃ b ∈ betting, b.homeTeam = f.homeTeam ∧ b.awayTeam = f.awayTeam) ∧
    (∀ f : ForecastRow, ∀ pre post : List BetRow, ∀ b : BetRow,
      (∀ b' ∈ pre, ¬(b'.homeTeam = f.homeTeam ∧ b'.awayTeam = f.awayTeam)) →
      b.homeTeam = f.homeTeam → b.awayTeam = f.awayTeam →
      edgeForRow (pre ++ b :: post) f =
        some ⟨f.homeTeam, f.awayTeam, f.eloHomeWinProb, b.bookmakerHomeWinProb,
          f.eloHomeWinProb - b.bookmakerHomeWinProb⟩) := by
  refine ⟨?_, ?_, ?_⟩
  · intro f hf hmatch
    obtain ⟨b, hb, hbh, hba⟩ := hmatch
    have hmem : b ∈ matchingBets betting f.homeTeam f.awayTeam := by
      rw [matchingBets, List.mem_filter]
      exact ⟨hb, by simp [hbh, hba]⟩
    cases h : (matchingBets betting f.homeTeam f.awayTeam).head? with
    | none =>
        rw [List.head?_eq_none_iff] at h
        rw [h] at hmem
        cases hmem
    | some m =>
        refine ⟨⟨f.homeTeam, f.awayTeam, f.eloHomeWinProb, m.bookmakerHomeWinProb,
          f.eloHomeWinProb - m.bookmakerHomeWinProb⟩, ?_, rfl, rfl⟩
        rw [calculate_betting_edges, List.mem_filterMap]
        exact ⟨f, hf, by simp [edgeForRow, h]⟩
  · intro row hrow
    rw [calculate_betting_edges, List.mem_filterMap] at hrow
    obtain ⟨f', hf', hEq⟩ := hrow
    cases h : (matchingBets betting f'.homeTeam f'.awayTeam).head? with
    | none => simp [edgeForRow, h] at hEq
    | some m' =>
        simp only [edgeForRow, h, Option.some.injEq] at hEq
        subst hEq
        have hm' : m' ∈ matchingBets betting f'.homeTeam f'.awayTeam := by
          cases hl : matchingBets betting f'.homeTeam f'.awayTeam with
          | nil => rw [hl] at h; cases h
          | cons x t =>
              rw [hl] at h
              simp only [List.head?, Option.some.injEq] at h
              subst h
              exact List.mem_cons_self x t
        rw [matchingBets, List.mem_filter] at hm'
        obtain ⟨hmem, hprop⟩ := hm'
        simp only [decide_eq_true_eq] at hprop
        exact ⟨f', hf', rfl, rfl, m', hmem, hprop.1, hprop.2⟩
  · intro f pre post b hpre hbh hba
    induction pre with
    | nil =>
        simp only [List.nil_append, edgeForRow, matchingBets, List.filter_cons,
          hbh, hba]
        simp
    | cons b' t ih =>
        have hb' : ¬(b'.homeTeam = f.homeTeam ∧ b'.awayTeam = f.awayTeam) :=
          hpre b' (List.mem_cons_self _ _)
        have ht : ∀ x ∈ t, ¬(x.homeTeam = f.homeTeam ∧ x.awayTeam = f.awayTeam) :=
          fun x hx => hpre x (List.mem_cons_of_mem _ hx)
        have hstep : matchingBets ((b' :: t) ++ b :: post) f.homeTeam f.awayTeam =
            matchingBets (t ++ b :: post) f.homeTeam f.awayTeam := by
          simp only [List.cons_append, matchingBets, List.filter_cons]
          simp [hb']
        rw [edgeForRow, hstep, ← edgeForRow]
        exact ih ht

/-- Witness for C10: a matched forecast row is emitted, and with a
non-matching betting row in front the bookmaker value still comes from
the first matching row. -/
theorem calculate_betting_edges_match_selection_witness :
    (∃ row ∈ calculate_betting_edges [⟨"A", "B", 3 / 4⟩]
        [⟨"C", "D", 1 / 3⟩, ⟨"A", "B", 1 / 2⟩],
      row.homeTeam = "A" ∧ row.awayTeam = "B") ∧
    edgeForRow [⟨"C", "D", 1 / 3⟩, ⟨"A", "B", 1 / 2⟩] ⟨"A", "B", 3 / 4⟩ =
      some ⟨"A", "B", 3 / 4, 1 / 2, 3 / 4 - 1 / 2⟩ :=
  ⟨(calculate_betting_edges_match_selection [⟨"A", "B", 3 / 4⟩]
        [⟨"C", "D", 1 / 3⟩, ⟨"A", "B", 1 / 2⟩]).1 ⟨"A", "B", 3 / 4⟩ (by simp)
      ⟨⟨"A", "B", 1 / 2⟩, by simp, rfl, rfl⟩,
    (calculate_betting_edges_match_selection [⟨"A", "B", 3 / 4⟩]
        [⟨"C", "D", 1 / 3⟩, ⟨"A", "B", 1 / 2⟩]).2.2 ⟨"A", "B", 3 / 4⟩
      [⟨"C", "D", 1 / 3⟩] [] ⟨"A", "B", 1 / 2⟩ (by simp) rfl rfl⟩
